import Mathlib

/-!
Shallow embedding of the two scripts of the kinde-bulk-user-delete repository
(src/deleteAllUsers.ts and src/deleteOrgUsersIdentities.ts) and proofs about
their bulk-delete, pagination, retry and token-cache logic.

Conventions of the embedding:
* JavaScript `string | undefined` values become `Option String`; JS truthiness
  of such a value (where both `undefined` and `""` are falsy) is `strFalsy`.
* External effects are parameters: the server is a function from the request
  cursor to the response, the per-item delete outcome is a `String → Bool`,
  HTTP statuses of successive fetches are a stream `Nat → Nat`.
* The unbounded `while (true)` pagination loops become fuel-indexed recursions
  returning `Option` (`none` = the loop had not terminated within `fuel`
  iterations), so non-termination of the source loop is expressible.
-/

namespace KindeBulk

/-- Truthiness of a JS `string | undefined` value: `undefined` and `""` are falsy. -/
def strFalsy : Option String → Bool
  | none => true
  | some s => s == ""

/-- Type `User` of deleteAllUsers.ts: `{ id: string; email?: string }`. -/
structure User where
  id : String
  email : Option String := none
  deriving Repr, DecidableEq

/-- Type `OrganizationUser` of deleteOrgUsersIdentities.ts is structurally the
same TypeScript type as `User` (`{ id: string; email?: string }`), so it is the
same type of the model. -/
abbrev OrganizationUser := User

/-- Type `Identity` of deleteOrgUsersIdentities.ts. The TS declaration gives
`id: string`, but the delete phase defends against runtime-missing or empty ids
(`.filter((id): id is string => Boolean(id))`), so the model keeps `id`
optional, with `some ""` for an empty id. -/
structure Identity where
  id : Option String
  type : Option String := none
  email : Option String := none
  name : Option String := none
  is_primary : Option Bool := none
  deriving Repr, DecidableEq

/-! ## Bulk mutator (deleteOrgUsersIdentities.ts `deleteAllUserIdentities`,
deleteAllUsers.ts `deleteAllUsers`) -/

/-- The id extraction of deleteOrgUsersIdentities.ts lines 425-428:
`identities.map(i => i.id).filter((id): id is string => Boolean(id))`.
`Boolean(undefined) = Boolean("") = false`, so exactly the present, non-empty
ids survive, in order. -/
def validIds (identities : List Identity) : List String :=
  (identities.map Identity.id).filterMap (fun o =>
    match o with
    | none => none
    | some s => if s = "" then none else some s)

/-- Order-preserving first-occurrence deduplication, the semantics of
`Array.from(new Set(xs))` for a string array (JS `Set` keeps insertion order
and drops later duplicates). `seen` is the set of already-kept elements. -/
def dedupFirstAux (seen : List String) : List String → List String
  | [] => []
  | x :: xs =>
    if x ∈ seen then dedupFirstAux seen xs
    else x :: dedupFirstAux (x :: seen) xs

/-- Semantics of `Array.from(new Set(xs))` on a string array. -/
def dedupFirst (xs : List String) : List String :=
  dedupFirstAux [] xs

/-- The `uniqueIdentityIds` array of deleteOrgUsersIdentities.ts lines 423-429. -/
def uniqueIdentityIds (identities : List Identity) : List String :=
  dedupFirst (validIds identities)

/-- Result record of `deleteAllUserIdentities`: `{ deleted, failed, processed }`. -/
structure BulkResult where
  deleted : Nat
  failed : Nat
  processed : Nat
  deriving Repr, DecidableEq

/-- The delete loop of deleteOrgUsersIdentities.ts lines 431-446.
`deleteOk id` models whether `deleteIdentity(id)` succeeds (`true`) or throws
after exhausting retries (`false`); `processed` is reassigned to `index + 1`
at the top of every iteration. -/
def bulkDeleteGo (deleteOk : String → Bool) :
    List String → Nat → Nat → Nat → Nat → BulkResult
  | [], _, deleted, failed, processed => ⟨deleted, failed, processed⟩
  | identityId :: rest, index, deleted, failed, _ =>
    let processed := index + 1
    if deleteOk identityId then
      bulkDeleteGo deleteOk rest (index + 1) (deleted + 1) failed processed
    else
      bulkDeleteGo deleteOk rest (index + 1) deleted (failed + 1) processed

/-- Function `deleteAllUserIdentities` of deleteOrgUsersIdentities.ts lines
406-453, for one user whose collected identities are `identities`: early
return `{0, 0, 0}` on an empty collection, otherwise the loop over the
deduplicated ids starting from `deleted = failed = processed = 0`. -/
def deleteAllUserIdentities (deleteOk : String → Bool) (identities : List Identity) :
    BulkResult :=
  if identities.length = 0 then ⟨0, 0, 0⟩
  else bulkDeleteGo deleteOk (uniqueIdentityIds identities) 0 0 0 0

/-- The identity ids for which a `DELETE /identities/{id}` request is attempted,
in attempt order (the iteration sequence of the loop at lines 431-446). -/
def orgDeleteAttempts (identities : List Identity) : List String :=
  if identities.length = 0 then [] else uniqueIdentityIds identities

/-- The delete loop of deleteAllUsers.ts lines 195-212: one `deleteUser(u.id)`
attempt per entry of `users`, counting successes and failures; no
deduplication. Returns `(success, failed)`. -/
def deleteAllUsersCounts (deleteOk : String → Bool) (users : List User) : Nat × Nat :=
  users.foldl
    (fun acc u => if deleteOk u.id then (acc.1 + 1, acc.2) else (acc.1, acc.2 + 1))
    (0, 0)

/-- The user ids for which a `DELETE /user?id=...` request is attempted by
`deleteAllUsers` (deleteAllUsers.ts lines 199-209), in attempt order: one per
list entry. -/
def globalDeleteAttempts (users : List User) : List String :=
  users.map User.id

/-! ### Lemmas about deduplication and the delete loop -/

lemma mem_dedupFirstAux (a : String) :
    ∀ (xs seen : List String), a ∈ dedupFirstAux seen xs ↔ a ∈ xs ∧ a ∉ seen := by
  intro xs
  induction xs with
  | nil => intro seen; simp [dedupFirstAux]
  | cons x xs ih =>
    intro seen
    rw [dedupFirstAux]
    by_cases hx : x ∈ seen <;> by_cases hax : a = x
    · rw [if_pos hx, ih]; subst hax; simp [hx]
    · rw [if_pos hx, ih]; simp [hax]
    · rw [if_neg hx]; subst hax; simp [ih, hx]
    · rw [if_neg hx]; simp [ih, hax]

lemma dedupFirstAux_sublist : ∀ (xs seen : List String), (dedupFirstAux seen xs).Sublist xs := by
  intro xs
  induction xs with
  | nil => intro seen; simp [dedupFirstAux]
  | cons x xs ih =>
    intro seen
    by_cases hx : x ∈ seen
    · rw [dedupFirstAux, if_pos hx]
      exact (ih seen).cons x
    · rw [dedupFirstAux, if_neg hx]
      exact (ih (x :: seen)).cons₂ x

lemma dedupFirstAux_nodup : ∀ (xs seen : List String), (dedupFirstAux seen xs).Nodup := by
  intro xs
  induction xs with
  | nil => intro seen; simp [dedupFirstAux]
  | cons x xs ih =>
    intro seen
    by_cases hx : x ∈ seen
    · rw [dedupFirstAux, if_pos hx]; exact ih seen
    · rw [dedupFirstAux, if_neg hx]
      refine List.nodup_cons.mpr ⟨fun hmem => ?_, ih (x :: seen)⟩
      exact ((mem_dedupFirstAux x xs (x :: seen)).mp hmem).2 (List.mem_cons_self x seen)

lemma mem_dedupFirst (a : String) (xs : List String) : a ∈ dedupFirst xs ↔ a ∈ xs := by
  rw [dedupFirst, mem_dedupFirstAux]
  simp

lemma dedupFirst_nodup (xs : List String) : (dedupFirst xs).Nodup :=
  dedupFirstAux_nodup xs []

lemma dedupFirst_sublist (xs : List String) : (dedupFirst xs).Sublist xs :=
  dedupFirstAux_sublist xs []

lemma countP_add_countP_not {α : Type} (p : α → Bool) :
    ∀ l : List α, l.countP p + l.countP (fun a => !(p a)) = l.length := by
  intro l
  induction l with
  | nil => simp
  | cons x xs ih =>
    by_cases hx : p x
    · rw [List.countP_cons_of_pos _ _ hx, List.countP_cons_of_neg _ _ (by simp [hx])]
      simp only [List.length_cons]
      omega
    · rw [List.countP_cons_of_neg _ _ (by simp [hx]), List.countP_cons_of_pos _ _ (by simp [hx])]
      simp only [List.length_cons]
      omega

lemma bulkDeleteGo_eq (deleteOk : String → Bool) :
    ∀ (ids : List String) (index deleted failed processed : Nat),
      bulkDeleteGo deleteOk ids index deleted failed processed =
        ⟨deleted + ids.countP deleteOk, failed + ids.countP (fun i => !(deleteOk i)),
         if ids.isEmpty then processed else index + ids.length⟩ := by
  intro ids
  induction ids with
  | nil => intro index deleted failed processed; simp [bulkDeleteGo]
  | cons x xs ih =>
    intro index deleted failed processed
    by_cases hx : deleteOk x
    · rw [bulkDeleteGo]
      simp only [hx, if_true, ih]
      rw [List.countP_cons_of_pos _ _ hx, List.countP_cons_of_neg _ _ (by simp [hx])]
      rcases xs with _ | ⟨y, ys⟩ <;> simp <;> omega
    · rw [bulkDeleteGo]
      simp only [hx, if_false, ih]
      rw [List.countP_cons_of_neg _ _ (by simp [hx]), List.countP_cons_of_pos _ _ (by simp [hx])]
      rcases xs with _ | ⟨y, ys⟩ <;> simp <;> omega

lemma validIds_mem (s : String) (identities : List Identity) :
    s ∈ validIds identities ↔ s ≠ "" ∧ ∃ i ∈ identities, i.id = some s := by
  simp only [validIds, List.mem_filterMap, List.mem_map]
  constructor
  · rintro ⟨o, ⟨i, hi, hoi⟩, ho⟩
    rcases o with _ | t
    · simp at ho
    · dsimp only at ho
      by_cases ht : t = ""
      · rw [if_pos ht] at ho
        simp at ho
      · rw [if_neg ht] at ho
        obtain rfl := Option.some.inj ho
        exact ⟨ht, i, hi, hoi⟩
  · rintro ⟨hs, i, hi, hid⟩
    exact ⟨some s, ⟨i, hi, hid⟩, by simp [hs]⟩

lemma validIds_append_invalid (identities : List Identity) (j : Identity)
    (hj : j.id = none ∨ j.id = some "") :
    validIds (identities ++ [j]) = validIds identities := by
  rcases hj with hj | hj <;>
    simp [validIds, List.filterMap_append, hj]

lemma deleteAllUserIdentities_eq (deleteOk : String → Bool) (identities : List Identity) :
    deleteAllUserIdentities deleteOk identities =
      ⟨(uniqueIdentityIds identities).countP deleteOk,
       (uniqueIdentityIds identities).countP (fun i => !(deleteOk i)),
       (uniqueIdentityIds identities).length⟩ := by
  rw [deleteAllUserIdentities]
  by_cases hlen : identities.length = 0
  · have : identities = [] := List.length_eq_zero.mp hlen
    subst this
    simp [uniqueIdentityIds, validIds, dedupFirst, dedupFirstAux]
  · rw [if_neg hlen, bulkDeleteGo_eq]
    rcases h : uniqueIdentityIds identities with _ | ⟨y, ys⟩ <;> simp

/-! ## Claim C7 -/

/-- C7: for a per-user bulk identity deletion over the `N` unique (valid)
identity ids of which `F` fail, the result satisfies `processed = N`,
`deleted = N - F`, `failed = F`, hence `processed = deleted + failed`; and on
any prefix of the batch, `processed` equals the number of items attempted so
far, so a mid-batch failure still reflects items attempted. -/
theorem c7_bulk_accounting (deleteOk : String → Bool) (identities : List Identity) :
    (deleteAllUserIdentities deleteOk identities).processed =
        (uniqueIdentityIds identities).length ∧
    (deleteAllUserIdentities deleteOk identities).deleted =
        (uniqueIdentityIds identities).length -
          (uniqueIdentityIds identities).countP (fun i => !(deleteOk i)) ∧
    (deleteAllUserIdentities deleteOk identities).failed =
        (uniqueIdentityIds identities).countP (fun i => !(deleteOk i)) ∧
    (deleteAllUserIdentities deleteOk identities).deleted +
        (deleteAllUserIdentities deleteOk identities).failed =
        (uniqueIdentityIds identities).length ∧
    ∀ k, (bulkDeleteGo deleteOk ((uniqueIdentityIds identities).take k) 0 0 0 0).processed =
        min k (uniqueIdentityIds identities).length := by
  have hcount := countP_add_countP_not deleteOk (uniqueIdentityIds identities)
  have hmain := deleteAllUserIdentities_eq deleteOk identities
  have hp : (deleteAllUserIdentities deleteOk identities).processed =
      (uniqueIdentityIds identities).length := by rw [hmain]
  have hd : (deleteAllUserIdentities deleteOk identities).deleted =
      (uniqueIdentityIds identities).countP deleteOk := by rw [hmain]
  have hf : (deleteAllUserIdentities deleteOk identities).failed =
      (uniqueIdentityIds identities).countP (fun i => !(deleteOk i)) := by rw [hmain]
  refine ⟨hp, by omega, hf, by omega, ?_⟩
  intro k
  have hlt := List.length_take k (uniqueIdentityIds identities)
  rw [bulkDeleteGo_eq]
  rcases h : (uniqueIdentityIds identities).take k with _ | ⟨y, ys⟩ <;> rw [h] at hlt <;>
    simp at hlt ⊢ <;> omega

/-! ## Claim C1 -/

/-- The identities `[{id:"a"}, {id:"b"}, {id:"a"}]` of the spec's deduplication
example. -/
def exampleDupIdentities : List Identity :=
  [{ id := some "a" }, { id := some "b" }, { id := some "a" }]

/-- The users `[{id:"a"}, {id:"b"}, {id:"a"}]`, the same ids fetched in the
global-user flow. -/
def exampleDupUsers : List User :=
  [{ id := "a" }, { id := "b" }, { id := "a" }]

/-- C1 counterexample: the global-user flow does not deduplicate; on fetched
users `[{id:"a"}, {id:"b"}, {id:"a"}]` it attempts three deletes, two of them
for id `"a"`, so the claimed at-most-once-per-unique-id guarantee fails for the
global flow. -/
theorem c1_counterexample :
    globalDeleteAttempts exampleDupUsers = ["a", "b", "a"] ∧
    (globalDeleteAttempts exampleDupUsers).count "a" = 2 ∧
    (globalDeleteAttempts exampleDupUsers).length = 3 := by
  decide

/-- C1 (amended): in the org-identity flow the fetched identities are
deduplicated by id before the delete loop, preserving first-seen order (the
attempt list is duplicate-free, is an order-preserving sublist of the valid
ids, and keeps exactly the ids present), and on `[{id:"a"},{id:"b"},{id:"a"}]`
exactly two delete attempts occur; the global-user flow performs no
deduplication and attempts one delete per fetched list entry. -/
theorem c1_amended :
    (∀ identities : List Identity,
      (orgDeleteAttempts identities).Nodup ∧
      (orgDeleteAttempts identities).Sublist (validIds identities) ∧
      (∀ s : String, s ∈ orgDeleteAttempts identities ↔ s ∈ validIds identities)) ∧
    orgDeleteAttempts exampleDupIdentities = ["a", "b"] ∧
    (orgDeleteAttempts exampleDupIdentities).length = 2 ∧
    (∀ users : List User, globalDeleteAttempts users = users.map User.id) := by
  refine ⟨fun identities => ?_, by decide, by decide, fun users => rfl⟩
  rw [orgDeleteAttempts]
  by_cases hlen : identities.length = 0
  · have : identities = [] := List.length_eq_zero.mp hlen
    subst this
    simp [validIds]
  · rw [if_neg hlen]
    exact ⟨dedupFirst_nodup _, dedupFirst_sublist _, fun s => mem_dedupFirst s _⟩

/-! ## Claim C10 -/

/-- C10: identities with a missing or empty id are filtered out before the
delete phase: appending such an identity changes neither the attempt list nor
the resulting counts, and every id actually attempted is a non-empty id of
some collected identity. -/
theorem c10_invalid_ids_filtered (deleteOk : String → Bool)
    (identities : List Identity) (j : Identity)
    (hj : j.id = none ∨ j.id = some "") :
    orgDeleteAttempts (identities ++ [j]) = orgDeleteAttempts identities ∧
    deleteAllUserIdentities deleteOk (identities ++ [j]) =
      deleteAllUserIdentities deleteOk identities ∧
    ∀ s ∈ orgDeleteAttempts identities, s ≠ "" ∧ ∃ i ∈ identities, i.id = some s := by
  have hv : validIds (identities ++ [j]) = validIds identities :=
    validIds_append_invalid identities j hj
  have hu : uniqueIdentityIds (identities ++ [j]) = uniqueIdentityIds identities := by
    rw [uniqueIdentityIds, hv, uniqueIdentityIds]
  have hmem : ∀ s ∈ orgDeleteAttempts identities, s ≠ "" ∧ ∃ i ∈ identities, i.id = some s := by
    intro s hs
    rw [orgDeleteAttempts] at hs
    by_cases hlen : identities.length = 0
    · rw [if_pos hlen] at hs
      simp at hs
    · rw [if_neg hlen, uniqueIdentityIds, mem_dedupFirst] at hs
      exact (validIds_mem s identities).mp hs
  refine ⟨?_, ?_, hmem⟩
  · by_cases hlen : identities.length = 0
    · obtain rfl : identities = [] := List.length_eq_zero.mp hlen
      rcases hj with hj | hj <;>
        simp [orgDeleteAttempts, uniqueIdentityIds, validIds, dedupFirst, dedupFirstAux, hj]
    · have hlapp : (identities ++ [j]).length = identities.length + 1 := by simp
      rw [orgDeleteAttempts, orgDeleteAttempts, if_neg (by omega), if_neg hlen, hu]
  · by_cases hlen : identities.length = 0
    · obtain rfl : identities = [] := List.length_eq_zero.mp hlen
      rcases hj with hj | hj <;>
        simp [deleteAllUserIdentities, uniqueIdentityIds, validIds, dedupFirst, dedupFirstAux,
          bulkDeleteGo, hj]
    · have hlapp : (identities ++ [j]).length = identities.length + 1 := by simp
      rw [deleteAllUserIdentities, deleteAllUserIdentities, if_neg (by omega), if_neg hlen, hu]

/-- C10 witness: the theorem at the concrete collection `[{id:"a"}]` with the
invalid identity `{id:undefined}` appended. -/
theorem c10_witness :
    orgDeleteAttempts ([{ id := some "a" }] ++ [{ id := none }]) =
      orgDeleteAttempts [{ id := some "a" }] :=
  (c10_invalid_ids_filtered (fun _ => true) [{ id := some "a" }] { id := none }
    (Or.inl rfl)).1

/-! ## Pagination (collectAllUsers, collectOrganizationUsers,
collectAllUserIdentities) -/

/-- Response type `GetUsersResponse` of deleteAllUsers.ts. `users` is optional
because the loop defends with `data.users ?? []`; the unused `code`/`message`
fields are omitted. -/
structure GetUsersResponse where
  users : Option (List User)
  next_token : Option String
  deriving Repr, DecidableEq

/-- Response type `GetOrganizationUsersResponse` of deleteOrgUsersIdentities.ts
(`organization_users?`, `next_token?`). -/
structure GetOrganizationUsersResponse where
  organization_users : Option (List OrganizationUser)
  next_token : Option String
  deriving Repr, DecidableEq

/-- Response type `GetUserIdentitiesResponse` of deleteOrgUsersIdentities.ts
(`identities?`, `has_more?`). -/
structure GetUserIdentitiesResponse where
  identities : Option (List Identity)
  has_more : Option Bool
  deriving Repr, DecidableEq

/-- The `while (true)` loop of `collectAllUsers` (deleteAllUsers.ts lines
155-174), one recursion step per iteration. `server` maps the `next_token`
request value to the parsed 2xx page response; `fuel` bounds the number of
iterations the model can observe, with `none` meaning the loop has not
terminated within `fuel` iterations. The result carries the accumulated users
and the page counter. The loop pushes the page, sets `prevToken = nextToken;
nextToken = data.next_token`, then breaks on the composite condition
`!nextToken || nextToken === prevToken || users.length === 0`. -/
def collectAllUsersGo (server : Option String → GetUsersResponse) :
    Nat → Option String → List User → Nat → Option (List User × Nat)
  | 0, _, _, _ => none
  | fuel + 1, nextToken0, all0, page =>
    let data := server nextToken0
    let users := data.users.getD []
    let all := all0 ++ users
    let prevToken := nextToken0
    let nextToken := data.next_token
    if strFalsy nextToken ∨ nextToken = prevToken ∨ users.length = 0 then
      some (all, page + 1)
    else
      collectAllUsersGo server fuel nextToken all (page + 1)

/-- Entry point of `collectAllUsers`: first request without `next_token`,
empty accumulator, page counter 0. -/
def collectAllUsers (server : Option String → GetUsersResponse) (fuel : Nat) :
    Option (List User × Nat) :=
  collectAllUsersGo server fuel none [] 0

/-- The `while (true)` loop of `collectOrganizationUsers`
(deleteOrgUsersIdentities.ts lines 268-295): push the page, then three
sequential checks — empty page first (intentionally before looking at the
token), then missing token, then token unchanged — else continue with the new
token. -/
def collectOrganizationUsersGo (server : Option String → GetOrganizationUsersResponse) :
    Nat → Option String → List OrganizationUser → Nat → Option (List OrganizationUser × Nat)
  | 0, _, _, _ => none
  | fuel + 1, nextToken, users0, page =>
    let data := server nextToken
    let pageUsers := data.organization_users.getD []
    let users := users0 ++ pageUsers
    let newNextToken := data.next_token
    if pageUsers.length = 0 then some (users, page + 1)
    else if strFalsy newNextToken then some (users, page + 1)
    else if newNextToken = nextToken then some (users, page + 1)
    else collectOrganizationUsersGo server fuel newNextToken users (page + 1)

/-- Entry point of `collectOrganizationUsers`. -/
def collectOrganizationUsers (server : Option String → GetOrganizationUsersResponse)
    (fuel : Nat) : Option (List OrganizationUser × Nat) :=
  collectOrganizationUsersGo server fuel none [] 0

/-- The `while (true)` loop of `collectAllUserIdentities`
(deleteOrgUsersIdentities.ts lines 356-397): stop on an empty page (before
pushing), push, stop when `has_more` is falsy, derive the next cursor from the
last item's id (`identities[identities.length - 1]?.id`), stop when it is
falsy or equal to the current cursor, else continue. -/
def collectAllUserIdentitiesGo (server : Option String → GetUserIdentitiesResponse) :
    Nat → Option String → List Identity → Option (List Identity)
  | 0, _, _ => none
  | fuel + 1, startingAfter, acc =>
    let data := server startingAfter
    let identities := data.identities.getD []
    if identities.length = 0 then some acc
    else
      let acc2 := acc ++ identities
      if data.has_more.getD false = false then some acc2
      else
        let newStartingAfter := identities.getLast?.bind Identity.id
        if strFalsy newStartingAfter then some acc2
        else if newStartingAfter = startingAfter then some acc2
        else collectAllUserIdentitiesGo server fuel newStartingAfter acc2

/-! ## Claim C3 -/

/-- A server whose next-token responses cycle with period two (`undefined ↦ A`,
`A ↦ B`, `B ↦ A`) and whose pages are always non-empty: a later next-token
always equals an earlier one, but never the immediately preceding one. -/
def cycleServer : Option String → GetUsersResponse := fun t =>
  if t = some "A" then ⟨some [{ id := "u" }], some "B"⟩
  else if t = some "B" then ⟨some [{ id := "u" }], some "A"⟩
  else ⟨some [{ id := "u" }], some "A"⟩

lemma cycleServer_loops : ∀ (fuel : Nat) (acc : List User) (page : Nat),
    collectAllUsersGo cycleServer fuel (some "A") acc page = none ∧
    collectAllUsersGo cycleServer fuel (some "B") acc page = none := by
  intro fuel
  induction fuel with
  | zero => intro acc page; exact ⟨rfl, rfl⟩
  | succ n ih =>
    intro acc page
    constructor
    · rw [collectAllUsersGo]
      simp only [cycleServer]
      norm_num [strFalsy]
      exact (ih _ _).2
    · rw [collectAllUsersGo]
      simp only [cycleServer]
      norm_num [strFalsy]
      exact (ih _ _).1

/-- C3 counterexample: against `cycleServer` a later next-token ("A", answered
to the third request) equals an earlier one ("A", answered to the first), yet
the pagination loop of `collectAllUsers` never terminates, for any amount of
fuel. -/
theorem c3_counterexample :
    ¬ ∃ fuel r, collectAllUsers cycleServer fuel = some r := by
  rintro ⟨fuel, r, hr⟩
  rcases fuel with _ | n
  · exact Option.noConfusion hr
  · rw [collectAllUsers, collectAllUsersGo] at hr
    have hc : cycleServer none = ⟨some [{ id := "u" }], some "A"⟩ := rfl
    rw [hc] at hr
    norm_num [strFalsy] at hr
    rw [(cycleServer_loops n _ _).1] at hr
    exact Option.noConfusion hr

/-- C3 (amended): the stall guard of every pagination loop compares the new
token or cursor only with the immediately preceding one. If a page's
next-token equals the token just used for the request, the loop terminates at
that page (in all three loops); but longer token cycles are not detected, and
pagination need not terminate on them. -/
theorem c3_amended :
    (∀ (server : Option String → GetUsersResponse) (fuel : Nat) (t : Option String)
        (acc : List User) (page : Nat), (server t).next_token = t →
        collectAllUsersGo server (fuel + 1) t acc page =
          some (acc ++ (server t).users.getD [], page + 1)) ∧
    (∀ (server : Option String → GetOrganizationUsersResponse) (fuel : Nat)
        (t : Option String) (acc : List OrganizationUser) (page : Nat),
        (server t).next_token = t →
        collectOrganizationUsersGo server (fuel + 1) t acc page =
          some (acc ++ (server t).organization_users.getD [], page + 1)) ∧
    (∀ (server : Option String → GetUserIdentitiesResponse) (fuel : Nat)
        (t : Option String) (acc : List Identity),
        ((server t).identities.getD []).getLast?.bind Identity.id = t →
        ∃ r, collectAllUserIdentitiesGo server (fuel + 1) t acc = some r) := by
  refine ⟨?_, ?_, ?_⟩
  · intro server fuel t acc page h
    rw [collectAllUsersGo]
    simp [h]
  · intro server fuel t acc page h
    rw [collectOrganizationUsersGo]
    by_cases he : ((server t).organization_users.getD []).length = 0
    · simp [he]
    · by_cases hf : strFalsy (server t).next_token
      · simp [he, hf]
      · simp [he, hf, h]
  · intro server fuel t acc h
    rw [collectAllUserIdentitiesGo]
    by_cases he : ((server t).identities.getD []).length = 0
    · exact ⟨acc, by simp [he]⟩
    · by_cases hm : (server t).has_more.getD false = false
      · exact ⟨acc ++ (server t).identities.getD [], by simp [he, hm]⟩
      · by_cases hf : strFalsy (((server t).identities.getD []).getLast?.bind Identity.id)
        · exact ⟨acc ++ (server t).identities.getD [], by simp [he, hm, hf]⟩
        · exact ⟨acc ++ (server t).identities.getD [], by simp [he, hm, hf, h]⟩

/-- C3 amended witness: a server that always answers with the token that was
just used stops the global-user loop after one page. -/
theorem c3_amended_witness :
    collectAllUsersGo (fun _ => ⟨some [{ id := "u" }], some "A"⟩) 1 (some "A") [] 0 =
      some ([{ id := "u" }], 1) :=
  (c3_amended).1 (fun _ => ⟨some [{ id := "u" }], some "A"⟩) 0 (some "A") [] 0 rfl

/-! ## Claim C8 -/

/-- C8: in each of the three pagination loops, a fetched page with zero items
terminates the loop at that page, whatever the next-token, `has_more` flag or
derivable cursor of that response. -/
theorem c8_empty_page_terminates :
    (∀ (server : Option String → GetUsersResponse) (fuel : Nat) (t : Option String)
        (acc : List User) (page : Nat), (server t).users.getD [] = [] →
        collectAllUsersGo server (fuel + 1) t acc page = some (acc, page + 1)) ∧
    (∀ (server : Option String → GetOrganizationUsersResponse) (fuel : Nat)
        (t : Option String) (acc : List OrganizationUser) (page : Nat),
        (server t).organization_users.getD [] = [] →
        collectOrganizationUsersGo server (fuel + 1) t acc page = some (acc, page + 1)) ∧
    (∀ (server : Option String → GetUserIdentitiesResponse) (fuel : Nat)
        (t : Option String) (acc : List Identity), (server t).identities.getD [] = [] →
        collectAllUserIdentitiesGo server (fuel + 1) t acc = some acc) := by
  refine ⟨?_, ?_, ?_⟩
  · intro server fuel t acc page h
    rw [collectAllUsersGo]
    simp [h]
  · intro server fuel t acc page h
    rw [collectOrganizationUsersGo]
    simp [h]
  · intro server fuel t acc h
    rw [collectAllUserIdentitiesGo]
    simp [h]

/-- C8 witness: a server answering an empty user page together with a
next-token still stops the global-user loop at that page. -/
theorem c8_witness :
    collectAllUsersGo (fun _ => ⟨some [], some "T"⟩) 5 none [] 0 = some ([], 1) :=
  c8_empty_page_terminates.1 (fun _ => ⟨some [], some "T"⟩) 4 none [] 0 rfl

/-! ## Claim C9 -/

/-- C9: the organization-user paginator (standalone empty-page check first,
then missing-token, then stall) and the global-user paginator (one composite
stop condition) are observably equivalent: against identical sequences of
server page responses they consume the same pages and accumulate the same
items. -/
theorem c9_paginators_equivalent
    (sg : Option String → GetUsersResponse)
    (so : Option String → GetOrganizationUsersResponse)
    (hsame : ∀ t, (so t).organization_users = (sg t).users ∧
      (so t).next_token = (sg t).next_token) :
    ∀ (fuel : Nat) (t : Option String) (acc : List User) (page : Nat),
      collectOrganizationUsersGo so fuel t acc page =
        collectAllUsersGo sg fuel t acc page := by
  intro fuel
  induction fuel with
  | zero => intro t acc page; rfl
  | succ n ih =>
    intro t acc page
    rw [collectOrganizationUsersGo, collectAllUsersGo]
    obtain ⟨h1, h2⟩ := hsame t
    simp only [h1, h2]
    by_cases he : ((sg t).users.getD []).length = 0
    · rw [if_pos he, if_pos (Or.inr (Or.inr he))]
    · rw [if_neg he]
      by_cases hf : strFalsy (sg t).next_token
      · rw [if_pos hf, if_pos (Or.inl hf)]
      · rw [if_neg hf]
        by_cases heq : (sg t).next_token = t
        · rw [if_pos heq, if_pos (Or.inr (Or.inl heq))]
        · rw [if_neg heq, if_neg (by
            intro hor
            rcases hor with h | h | h
            · exact hf h
            · exact heq h
            · exact he h)]
          exact ih _ _ _

/-- C9 witness: the theorem at a concrete identical pair of servers. -/
theorem c9_witness :
    collectOrganizationUsersGo (fun _ => ⟨some [{ id := "u" }], none⟩) 3 none [] 0 =
      collectAllUsersGo (fun _ => ⟨some [{ id := "u" }], none⟩) 3 none [] 0 :=
  c9_paginators_equivalent (fun _ => ⟨some [{ id := "u" }], none⟩)
    (fun _ => ⟨some [{ id := "u" }], none⟩) (fun _ => ⟨rfl, rfl⟩) 3 none [] 0

/-! ## Resilient request executor (requestWithRetry) -/

/-- Outcome of one logical `requestWithRetry` call: the status of the response
finally returned to the caller, the total number of HTTP attempts issued, and
the number of forced token refreshes performed on the way. -/
structure ReqOutcome where
  status : Nat
  fetches : Nat
  refreshes : Nat
  deriving Repr, DecidableEq

/-- Function `requestWithRetry` of deleteOrgUsersIdentities.ts lines 197-229.
`statuses k` is the HTTP status answered to the `(k+1)`-st fetch of the run,
so the fetch of the current call returns `statuses k`. A 401 with
`refreshedAfter401 = false` forces a refresh and retries with the same
`attempt` and the flag set; a 429 or ≥500 with `attempt < maxRetries` retries
with `attempt + 1`; any other case returns the response. -/
def requestWithRetryOrg (statuses : Nat → Nat) (maxRetries : Nat)
    (k attempt : Nat) (refreshedAfter401 : Bool) (refreshes : Nat) : ReqOutcome :=
  if h1 : statuses k = 401 ∧ refreshedAfter401 = false then
    requestWithRetryOrg statuses maxRetries (k + 1) attempt true (refreshes + 1)
  else if h2 : (statuses k = 429 ∨ 500 ≤ statuses k) ∧ attempt < maxRetries then
    requestWithRetryOrg statuses maxRetries (k + 1) (attempt + 1) refreshedAfter401 refreshes
  else
    ⟨statuses k, k + 1, refreshes⟩
termination_by 2 * (maxRetries + 1 - attempt) + (if refreshedAfter401 then 0 else 1)
decreasing_by
  all_goals cases refreshedAfter401 <;> simp_all <;> omega

/-- Function `requestWithRetry` of deleteAllUsers.ts lines 90-127: there is no
separate flag; the 401 refresh-retry is guarded by `attempt < 1` and recurses
with `attempt + 1`, sharing the attempt counter with the backoff retry. -/
def requestWithRetryGlobal (statuses : Nat → Nat) (maxRetries : Nat)
    (k attempt refreshes : Nat) : ReqOutcome :=
  if h1 : statuses k = 401 ∧ attempt < 1 then
    requestWithRetryGlobal statuses maxRetries (k + 1) (attempt + 1) (refreshes + 1)
  else if h2 : (statuses k = 429 ∨ 500 ≤ statuses k) ∧ attempt < maxRetries then
    requestWithRetryGlobal statuses maxRetries (k + 1) (attempt + 1) refreshes
  else
    ⟨statuses k, k + 1, refreshes⟩
termination_by (max maxRetries 1) - attempt
decreasing_by
  all_goals omega

/-! ## Claim C4 -/

/-- C4 counterexample: in the global-user script a 500 followed by a 401 ends
the logical call with the 401 returned after 2 fetches and zero token
refreshes — the first 401 of the call triggers no refresh, because the auth
retry shares the attempt counter with the backoff retry. -/
theorem c4_counterexample :
    requestWithRetryGlobal (fun k => if k = 0 then 500 else 401) 6 0 0 0 =
      ⟨401, 2, 0⟩ := by
  rw [requestWithRetryGlobal]
  norm_num
  rw [requestWithRetryGlobal]
  norm_num

/-- Status stream answering 401 to the first fetch, 429 to the next `m`
fetches, and 200 afterwards. -/
def authThenThrottleStream (m : Nat) : Nat → Nat := fun i =>
  if i = 0 then 401 else if i ≤ m then 429 else 200

lemma requestWithRetryOrg_429_run (statuses : Nat → Nat) (maxRetries : Nat) :
    ∀ (n k attempt refreshes : Nat), attempt + n = maxRetries →
      (∀ i, i < n → statuses (k + i) = 429) →
      statuses (k + n) = 200 →
      requestWithRetryOrg statuses maxRetries k attempt true refreshes =
        ⟨200, k + n + 1, refreshes⟩ := by
  intro n
  induction n with
  | zero =>
    intro k attempt refreshes hsum h429 h200
    have h0 : statuses k = 200 := by simpa using h200
    rw [requestWithRetryOrg, dif_neg (by simp [h0]), dif_neg (by simp [h0])]
    simp [h0]
  | succ m ih =>
    intro k attempt refreshes hsum h429 h200
    have h0 : statuses k = 429 := by simpa using h429 0 (by omega)
    rw [requestWithRetryOrg, dif_neg (by simp [h0]), dif_pos ⟨Or.inl h0, by omega⟩]
    have hrec := ih (k + 1) (attempt + 1) refreshes (by omega)
      (fun i hi => by
        have := h429 (i + 1) (by omega)
        have harith : k + (i + 1) = k + 1 + i := by omega
        rwa [harith] at this)
      (by
        have harith : k + (m + 1) = k + 1 + m := by omega
        rwa [harith] at h200)
    rw [hrec]
    have harith : k + 1 + m + 1 = k + (m + 1) + 1 := by omega
    rw [harith]

/-- C4 (amended): the org script behaves as the claim states — the first 401
of a logical call (flag unset) forces one refresh and retries the same call
with the same attempt counter; a 401 with the flag already set is terminal;
and the auth retry does not consume the 429/5xx budget (after a leading 401,
all `maxRetries` backoff retries are still available). The global script
differs: its auth retry shares the attempt counter, so only a 401 on the very
first attempt triggers the refresh-retry, it consumes one attempt, and a 401
on any later attempt is terminal with no refresh. -/
theorem c4_amended :
    (∀ (statuses : Nat → Nat) (maxRetries k attempt refreshes : Nat),
      statuses k = 401 →
      requestWithRetryOrg statuses maxRetries k attempt false refreshes =
        requestWithRetryOrg statuses maxRetries (k + 1) attempt true (refreshes + 1)) ∧
    (∀ (statuses : Nat → Nat) (maxRetries k attempt refreshes : Nat),
      statuses k = 401 →
      requestWithRetryOrg statuses maxRetries k attempt true refreshes =
        ⟨401, k + 1, refreshes⟩) ∧
    (∀ m, requestWithRetryOrg (authThenThrottleStream m) m 0 0 false 0 = ⟨200, m + 2, 1⟩) ∧
    (∀ (statuses : Nat → Nat) (maxRetries k refreshes : Nat),
      statuses k = 401 →
      requestWithRetryGlobal statuses maxRetries k 0 refreshes =
        requestWithRetryGlobal statuses maxRetries (k + 1) 1 (refreshes + 1)) ∧
    (∀ (statuses : Nat → Nat) (maxRetries k attempt refreshes : Nat),
      statuses k = 401 → 1 ≤ attempt →
      requestWithRetryGlobal statuses maxRetries k attempt refreshes =
        ⟨401, k + 1, refreshes⟩) := by
  refine ⟨?_, ?_, ?_, ?_, ?_⟩
  · intro statuses maxRetries k attempt refreshes h
    rw [requestWithRetryOrg, dif_pos ⟨h, rfl⟩]
  · intro statuses maxRetries k attempt refreshes h
    rw [requestWithRetryOrg, dif_neg (by simp [h]), dif_neg (by simp [h])]
    simp [h]
  · intro m
    have h401 : authThenThrottleStream m 0 = 401 := rfl
    rw [requestWithRetryOrg, dif_pos ⟨h401, rfl⟩]
    simp only [Nat.zero_add]
    have hrec := requestWithRetryOrg_429_run (authThenThrottleStream m) m m 1 0 1 (by omega)
      (fun i hi => by
        have h1 : ¬(1 + i = 0) := by omega
        have h2 : 1 + i ≤ m := by omega
        simp [authThenThrottleStream, h1, h2])
      (by
        have h1 : ¬(1 + m = 0) := by omega
        have h2 : ¬(1 + m ≤ m) := by omega
        simp [authThenThrottleStream, h1, h2])
    rw [hrec, show 1 + m + 1 = m + 2 by omega]
  · intro statuses maxRetries k refreshes h
    rw [requestWithRetryGlobal, dif_pos ⟨h, by omega⟩]
  · intro statuses maxRetries k attempt refreshes h ha
    rw [requestWithRetryGlobal, dif_neg (by omega), dif_neg (by simp [h])]
    simp [h]

/-- C4 amended witness: the org executor at an all-401 stream refreshes once
and retries once. -/
theorem c4_witness :
    requestWithRetryOrg (fun _ => 401) 6 0 0 false 0 =
      requestWithRetryOrg (fun _ => 401) 6 1 0 true 1 :=
  c4_amended.1 (fun _ => 401) 6 0 0 0 rfl

/-! ## Claim C5 -/

/-- Parse outcome of a `Retry-After` header, abstracting over the raw string:
`missing` — header absent (or empty, hence falsy); `seconds s` — the text is a
finite non-negative number for JS `Number`; `httpDate d` — the text parses via
`Date.parse` to epoch milliseconds `d`; `malformed` — neither. -/
inductive RetryAfterValue
  | missing
  | seconds (s : Nat)
  | httpDate (dateMs : Int)
  | malformed
  deriving Repr, DecidableEq

/-- Function `parseRetryAfterMs` of deleteOrgUsersIdentities.ts lines 117-133:
a numeric value is scaled to milliseconds; a date becomes the remaining
duration `Math.max(0, dateMs - Date.now())`; otherwise `undefined`. -/
def parseRetryAfterMs (v : RetryAfterValue) (now : Int) : Option Int :=
  match v with
  | .missing => none
  | .seconds s => some ((s : Int) * 1000)
  | .httpDate d => some (max 0 (d - now))
  | .malformed => none

/-- Wait computation of the org script's `requestWithRetry` (lines 216-218):
`waitMs = (retryAfterMs ?? min(BASE_DELAY_MS * 2 ** attempt, 15000)) +
Math.floor(Math.random() * 250)`, with the jitter passed in as a parameter. -/
def computeWaitOrg (v : RetryAfterValue) (now : Int) (baseDelayMs attempt jitter : Nat) :
    Int :=
  let retryAfterMs := parseRetryAfterMs v now
  let backoffMs : Int := min ((baseDelayMs : Int) * 2 ^ attempt) 15000
  retryAfterMs.getD backoffMs + jitter

/-- Wait computation of the global script's `requestWithRetry` (lines
111-115): `baseDelay = retryAfter ? Number(retryAfter) * 1000 :
min(BASE_DELAY_MS * 2 ** attempt, 15000)`, then `baseDelay + jitter`. A
non-numeric header (e.g. an HTTP date) makes `Number(...)` return `NaN`; the
`NaN` delay is coerced to 0 by `setTimeout`, modelled as a 0 wait. -/
def computeWaitGlobal (v : RetryAfterValue) (baseDelayMs attempt jitter : Nat) : Int :=
  match v with
  | .missing => min ((baseDelayMs : Int) * 2 ^ attempt) 15000 + jitter
  | .seconds s => (s : Int) * 1000 + jitter
  | .httpDate _ => 0
  | .malformed => 0

/-- Modelled from the claim's wording: wait time equals
`max(retryAfterHint, baseDelay * 2 ^ attempt)` capped at 15000 ms, plus the
jitter. -/
def specClaimedWait (v : RetryAfterValue) (now : Int) (baseDelayMs attempt jitter : Nat) :
    Int :=
  min (max ((parseRetryAfterMs v now).getD 0) ((baseDelayMs : Int) * 2 ^ attempt)) 15000 +
    jitter

/-- Modelled from the amended claim: when the header parses, its value alone,
uncapped; otherwise the exponential backoff capped at 15000 ms; plus jitter. -/
def specAmendedWaitOrg (v : RetryAfterValue) (now : Int) (baseDelayMs attempt jitter : Nat) :
    Int :=
  match parseRetryAfterMs v now with
  | some hint => hint + jitter
  | none => min ((baseDelayMs : Int) * 2 ^ attempt) 15000 + jitter

/-- C5 counterexample: with `Retry-After: 20`, base delay 500 ms, attempt 0
and zero jitter, the org code waits 20000 ms while the claimed formula yields
the 15000 ms cap. -/
theorem c5_counterexample :
    computeWaitOrg (.seconds 20) 0 500 0 0 = 20000 ∧
    specClaimedWait (.seconds 20) 0 500 0 0 = 15000 ∧
    (20000 : Int) ≠ 15000 := by
  refine ⟨?_, ?_, by norm_num⟩ <;>
    norm_num [computeWaitOrg, specClaimedWait, parseRetryAfterMs]

/-- C5 (amended): when `Retry-After` parses (as a number of seconds, or — in
the org script only — as an HTTP date), its value alone is used as the wait,
uncapped and without taking the max with the backoff; otherwise the wait is
`baseDelay * 2 ^ attempt` capped at 15000 ms; a jitter in [0,250) ms is then
added, so the wait lies in `[base, base + 250)`. The global script honors the
header only as a number of seconds. -/
theorem c5_amended :
    (∀ (v : RetryAfterValue) (now : Int) (baseDelayMs attempt jitter : Nat),
      computeWaitOrg v now baseDelayMs attempt jitter =
        specAmendedWaitOrg v now baseDelayMs attempt jitter) ∧
    (∀ (s baseDelayMs attempt jitter : Nat),
      computeWaitGlobal (.seconds s) baseDelayMs attempt jitter = (s : Int) * 1000 + jitter ∧
      computeWaitGlobal .missing baseDelayMs attempt jitter =
        min ((baseDelayMs : Int) * 2 ^ attempt) 15000 + jitter) ∧
    (∀ (v : RetryAfterValue) (now : Int) (baseDelayMs attempt jitter : Nat), jitter < 250 →
      computeWaitOrg v now baseDelayMs attempt 0 ≤
          computeWaitOrg v now baseDelayMs attempt jitter ∧
      computeWaitOrg v now baseDelayMs attempt jitter <
          computeWaitOrg v now baseDelayMs attempt 0 + 250) := by
  refine ⟨?_, ?_, ?_⟩
  · intro v now baseDelayMs attempt jitter
    rcases v <;> simp [computeWaitOrg, specAmendedWaitOrg, parseRetryAfterMs]
  · intro s baseDelayMs attempt jitter
    exact ⟨rfl, rfl⟩
  · intro v now baseDelayMs attempt jitter hj
    rcases v <;> simp [computeWaitOrg, parseRetryAfterMs] <;> omega

/-- C5 amended witness: the jitter bound of the theorem at a concrete input. -/
theorem c5_witness :
    computeWaitOrg (.seconds 20) 0 500 0 0 ≤ computeWaitOrg (.seconds 20) 0 500 0 100 :=
  (c5_amended.2.2 (.seconds 20) 0 500 0 100 (by norm_num)).1

/-! ## Token manager (getAccessToken) -/

/-- The `tokenCache` record of both scripts: `{ token, expiresAt }`, with
`expiresAt` in epoch milliseconds. -/
structure TokenCache where
  token : String
  expiresAt : Int
  deriving Repr, DecidableEq

/-- Type `TokenResponse` of both scripts, restricted to the fields the code
reads; `expires_in` is optional because both scripts default it (`?? 3600`). -/
structure TokenResponse where
  access_token : String
  expires_in : Option Int
  deriving Repr, DecidableEq

/-- Outcome of the token-endpoint fetch, when one is made: `ok` is
`response.ok`, `json` the parsed body (`none` = the body is not valid JSON).
The org script checks `json?.access_token` for truthiness, so a runtime
missing access token is modelled by `json = none` or `access_token = ""`. -/
structure TokenExchange where
  ok : Bool
  json : Option TokenResponse
  deriving Repr, DecidableEq

/-- Result of one `getAccessToken` call: the returned token or the thrown
error, the token cache after the call, and the number of token-endpoint
network calls made. -/
structure TokenCallResult where
  result : Except String String
  cache : Option TokenCache
  networkCalls : Nat

/-- Cold path of the org script's `getAccessToken` (deleteOrgUsersIdentities.ts
lines 162-194), taken when the cache check fails: one fetch; non-ok → throw;
body not JSON or falsy `access_token` → throw; else cache
`{ token, expiresAt = now + Math.max(expiresIn - 60, 0) * 1000 }`. -/
def getAccessTokenOrgCold (now : Int) (cache : Option TokenCache) (ex : TokenExchange) :
    TokenCallResult :=
  if ex.ok = false then ⟨.error "Token request failed", cache, 1⟩
  else
    match ex.json with
    | none => ⟨.error "no access_token in response", cache, 1⟩
    | some json =>
      if json.access_token = "" then ⟨.error "no access_token in response", cache, 1⟩
      else
        let expiresIn := json.expires_in.getD 3600
        ⟨.ok json.access_token,
         some ⟨json.access_token, now + max (expiresIn - 60) 0 * 1000⟩, 1⟩

/-- Function `getAccessToken` of deleteOrgUsersIdentities.ts lines 157-195:
`if (!force && tokenCache && Date.now() < tokenCache.expiresAt) return
tokenCache.token;` with no network call, else the cold path. -/
def getAccessTokenOrg (force : Bool) (now : Int) (cache : Option TokenCache)
    (ex : TokenExchange) : TokenCallResult :=
  match cache with
  | some c =>
    if force = false ∧ now < c.expiresAt then ⟨.ok c.token, some c, 0⟩
    else getAccessTokenOrgCold now cache ex
  | none => getAccessTokenOrgCold now cache ex

/-- Cold path of the global script's `getAccessToken` (deleteAllUsers.ts lines
58-87): one fetch; non-ok → throw; `resp.json()` failing to parse → throw; no
access-token check; cache `{ token, expiresAt = now + (expiresIn - 60) * 1000 }`
— no clamping of the 60 s safety skew. -/
def getAccessTokenGlobalCold (now : Int) (cache : Option TokenCache) (ex : TokenExchange) :
    TokenCallResult :=
  if ex.ok = false then ⟨.error "Token request failed", cache, 1⟩
  else
    match ex.json with
    | none => ⟨.error "invalid JSON body", cache, 1⟩
    | some json =>
      let expiresIn := json.expires_in.getD 3600
      ⟨.ok json.access_token, some ⟨json.access_token, now + (expiresIn - 60) * 1000⟩, 1⟩

/-- Function `getAccessToken` of deleteAllUsers.ts lines 53-88: same warm-path
check as the org script, then the global cold path. -/
def getAccessTokenGlobal (force : Bool) (now : Int) (cache : Option TokenCache)
    (ex : TokenExchange) : TokenCallResult :=
  match cache with
  | some c =>
    if force = false ∧ now < c.expiresAt then ⟨.ok c.token, some c, 0⟩
    else getAccessTokenGlobalCold now cache ex
  | none => getAccessTokenGlobalCold now cache ex

/-! ## Claim C6 -/

/-- C6 counterexample: the global script's getter, on a cold cache at
`now = 0` with `expires_in = 0`, caches `expiresAt = -60000` (already
expired), not the claimed `now + max(expires_in - 60, 0) = 0`. -/
theorem c6_counterexample :
    (getAccessTokenGlobal false 0 none ⟨true, some ⟨"t", some 0⟩⟩).cache =
      some ⟨"t", -60000⟩ ∧
    (0 : Int) + max ((0 : Int) - 60) 0 * 1000 = 0 ∧
    some (⟨"t", -60000⟩ : TokenCache) ≠ some ⟨"t", 0⟩ := by
  refine ⟨rfl, by norm_num, by simp⟩

/-- C6 (amended): with a cached token, no force-refresh and `now < expiresAt`,
both getters return the cached token with zero network calls; in every other
case exactly one token-endpoint exchange occurs, and on success the org script
caches `{value, expiresAt = now + max(expires_in - 60, 0) * 1000}` while the
global script caches `{value, expiresAt = now + (expires_in - 60) * 1000}`
without the clamp, which for `expires_in < 60` lies in the past. -/
theorem c6_amended :
    (∀ (now : Int) (c : TokenCache) (ex : TokenExchange), now < c.expiresAt →
      getAccessTokenOrg false now (some c) ex = ⟨.ok c.token, some c, 0⟩ ∧
      getAccessTokenGlobal false now (some c) ex = ⟨.ok c.token, some c, 0⟩) ∧
    (∀ (force : Bool) (now : Int) (cache : Option TokenCache) (ex : TokenExchange),
      (force = true ∨ cache = none ∨ ∃ c, cache = some c ∧ c.expiresAt ≤ now) →
      getAccessTokenOrg force now cache ex = getAccessTokenOrgCold now cache ex ∧
      getAccessTokenGlobal force now cache ex = getAccessTokenGlobalCold now cache ex) ∧
    (∀ (now : Int) (cache : Option TokenCache) (ex : TokenExchange),
      (getAccessTokenOrgCold now cache ex).networkCalls = 1 ∧
      (getAccessTokenGlobalCold now cache ex).networkCalls = 1) ∧
    (∀ (now : Int) (cache : Option TokenCache) (tok : String) (e : Int), tok ≠ "" →
      getAccessTokenOrgCold now cache ⟨true, some ⟨tok, some e⟩⟩ =
        ⟨.ok tok, some ⟨tok, now + max (e - 60) 0 * 1000⟩, 1⟩ ∧
      getAccessTokenGlobalCold now cache ⟨true, some ⟨tok, some e⟩⟩ =
        ⟨.ok tok, some ⟨tok, now + (e - 60) * 1000⟩, 1⟩) := by
  refine ⟨?_, ?_, ?_, ?_⟩
  · intro now c ex h
    constructor
    · rw [getAccessTokenOrg, if_pos ⟨rfl, h⟩]
    · rw [getAccessTokenGlobal, if_pos ⟨rfl, h⟩]
  · intro force now cache ex h
    rcases cache with _ | c
    · exact ⟨rfl, rfl⟩
    · have hcond : ¬(force = false ∧ now < c.expiresAt) := by
        rcases h with h | h | ⟨c2, hc2, he⟩
        · simp [h]
        · exact absurd h (by simp)
        · obtain rfl := Option.some.inj hc2
          rintro ⟨_, hlt⟩
          omega
      exact ⟨by rw [getAccessTokenOrg, if_neg hcond],
        by rw [getAccessTokenGlobal, if_neg hcond]⟩
  · intro now cache ex
    rcases ex with ⟨ok, json⟩
    rcases ok <;> rcases json with _ | j <;>
      simp [getAccessTokenOrgCold, getAccessTokenGlobalCold] <;>
      by_cases hj : j.access_token = "" <;> simp [hj]
  · intro now cache tok e htok
    constructor
    · rw [getAccessTokenOrgCold]
      simp [htok]
    · rw [getAccessTokenGlobalCold]
      simp

/-- C6 amended witness: the warm path of the theorem at a concrete cache. -/
theorem c6_witness :
    getAccessTokenOrg false 0 (some ⟨"tok", 1000⟩) ⟨true, none⟩ =
      ⟨.ok "tok", some ⟨"tok", 1000⟩, 0⟩ :=
  (c6_amended.1 0 ⟨"tok", 1000⟩ ⟨true, none⟩ (by norm_num)).1

/-! ## Orchestrator exit indicators -/

/-- One step of the per-user loop of the org script's `main` (lines 473-484):
process the user's identities and add the per-user result to the running
totals `{usersProcessed, identitiesProcessed, identitiesDeleted,
identitiesFailed}`. -/
structure OrgTotals where
  usersProcessed : Nat
  identitiesProcessed : Nat
  identitiesDeleted : Nat
  identitiesFailed : Nat
  deriving Repr, DecidableEq

/-- Accumulation step of the org `main` loop. `identitiesOf u` gives the
identities that `collectAllUserIdentities` returns for user `u`. -/
def orgMainStep (deleteOk : String → Bool) (identitiesOf : String → List Identity)
    (t : OrgTotals) (u : OrganizationUser) : OrgTotals :=
  let r := deleteAllUserIdentities deleteOk (identitiesOf u.id)
  ⟨t.usersProcessed + 1, t.identitiesProcessed + r.processed,
    t.identitiesDeleted + r.deleted, t.identitiesFailed + r.failed⟩

/-- The totals of the org script's `main` after the per-user loop, starting
from all-zero counters. -/
def orgMainTotals (deleteOk : String → Bool) (identitiesOf : String → List Identity)
    (orgUsers : List OrganizationUser) : OrgTotals :=
  orgUsers.foldl (orgMainStep deleteOk identitiesOf) ⟨0, 0, 0, 0⟩

/-- Exit indicator of the org script's `main` on a run whose collection and
processing complete (lines 490-492): `process.exitCode = 1` iff
`identitiesFailed > 0`, else the default 0. -/
def orgMainExit (deleteOk : String → Bool) (identitiesOf : String → List Identity)
    (orgUsers : List OrganizationUser) : Nat :=
  if 0 < (orgMainTotals deleteOk identitiesOf orgUsers).identitiesFailed then 1 else 0

/-- The global script's `deleteAllUsers` as seen by its `main`: every per-item
failure is caught inside the loop body (lines 201-208), so the call always
returns the counts and never throws. -/
def deleteAllUsersRun (deleteOk : String → Bool) (users : List User) :
    Except String (Nat × Nat) :=
  .ok (deleteAllUsersCounts deleteOk users)

/-- Exit indicator of the global script's `main` on a run where user
collection succeeds (lines 214-232): `process.exitCode` is assigned only in
the `catch` block, and `deleteAllUsersRun` never throws. -/
def globalMainExit (deleteOk : String → Bool) (users : List User) : Nat :=
  match deleteAllUsersRun deleteOk users with
  | .ok _ => 0
  | .error _ => 1

/-! ## Claim C2 -/

lemma foldl_orgMainStep_failed (deleteOk : String → Bool)
    (identitiesOf : String → List Identity) :
    ∀ (us : List OrganizationUser) (t : OrgTotals),
      (us.foldl (orgMainStep deleteOk identitiesOf) t).identitiesFailed =
        t.identitiesFailed +
          (us.map (fun u => (deleteAllUserIdentities deleteOk (identitiesOf u.id)).failed)).sum := by
  intro us
  induction us with
  | nil => intro t; simp
  | cons u us ih =>
    intro t
    rw [List.foldl_cons, ih]
    simp [orgMainStep]
    omega

/-- C2 counterexample: in the global-user flow a run in which the only user's
delete fails (`failed = 1`) still ends with exit indicator 0; the claim's
"non-zero on any individual delete failure" fails for the global flow. -/
theorem c2_counterexample :
    (deleteAllUsersCounts (fun _ => false) [{ id := "a" }]).2 = 1 ∧
    globalMainExit (fun _ => false) [{ id := "a" }] = 0 :=
  ⟨rfl, rfl⟩

/-- C2 (amended): the org flow's exit indicator is 0 exactly when no identity
deletion failed (in particular 0 on full success, non-zero as soon as one
failed); the global flow's indicator stays 0 after any completed run, even
when individual user deletions failed — it becomes non-zero only when an
unhandled error (config, auth, page fetch) aborts the run. -/
theorem c2_amended :
    (∀ (deleteOk : String → Bool) (identitiesOf : String → List Identity)
        (orgUsers : List OrganizationUser),
      orgMainExit deleteOk identitiesOf orgUsers = 0 ↔
        (orgMainTotals deleteOk identitiesOf orgUsers).identitiesFailed = 0) ∧
    (∀ (deleteOk : String → Bool) (identitiesOf : String → List Identity)
        (orgUsers : List OrganizationUser), (∀ s, deleteOk s = true) →
      orgMainExit deleteOk identitiesOf orgUsers = 0) ∧
    (∀ (deleteOk : String → Bool) (users : List User),
      globalMainExit deleteOk users = 0) := by
  refine ⟨?_, ?_, ?_⟩
  · intro deleteOk identitiesOf orgUsers
    rw [orgMainExit]
    split <;> omega
  · intro deleteOk identitiesOf orgUsers h
    have hfail : (orgMainTotals deleteOk identitiesOf orgUsers).identitiesFailed = 0 := by
      rw [orgMainTotals, foldl_orgMainStep_failed]
      have hz : ∀ x ∈ orgUsers.map
          (fun u => (deleteAllUserIdentities deleteOk (identitiesOf u.id)).failed), x = 0 := by
        intro x hx
        rcases List.mem_map.mp hx with ⟨u, _, rfl⟩
        rw [deleteAllUserIdentities_eq]
        exact List.countP_eq_zero.mpr (fun a _ => by simp [h a])
      rw [List.sum_eq_zero hz]
      rfl
    rw [orgMainExit, if_neg (by omega)]
  · intro deleteOk users
    rfl

/-- C2 amended witness: a fully successful org run exits 0. -/
theorem c2_witness :
    orgMainExit (fun _ => true) (fun _ => [{ id := some "i" }]) [{ id := "u" }] = 0 :=
  c2_amended.2.1 (fun _ => true) (fun _ => [{ id := some "i" }]) [{ id := "u" }]
    (fun _ => rfl)

end KindeBulk
